import Mathlib

/-!
Shallow embedding of `samples/sampleOnnxMNIST/sampleOnnxMNIST.cpp`.

The sample sequences calls into the closed-source TensorRT runtime.  All
vendor calls (builder/network/parser creation, engine build, engine
deserialization, execution) are modelled as oracles recording whether the
call succeeded, and every function of the sample additionally returns the
list of vendor-call events it performed, in order, so that control-flow
properties (which path ran, in which order, what was passed to the vendor
API) can be stated and proved.

Numeric post-processing (`verifyOutput`) is modelled over `ℚ`; the C
library `exp` is abstracted as a function parameter `expF`, whose only
property used by the sample is positivity.
-/

namespace SampleOnnxMNIST

/-! ### `verifyOutput` numeric pipeline -/

/-- First loop of `verifyOutput`: `output[i] = exp(output[i]); sum += output[i];`
    over the `outputSize = 10` entries, i.e. the sum of all exponentials. -/
def softmaxSum (expF : ℚ → ℚ) (output : List ℚ) : ℚ :=
  (output.map expF).foldl (· + ·) 0

/-- Second loop of `verifyOutput`, division part: `output[i] /= sum;`,
    so each entry is replaced by its exponential divided by the sum of all
    exponentials. -/
def softmaxProbs (expF : ℚ → ℚ) (output : List ℚ) : List ℚ :=
  (output.map expF).map (fun e => e / softmaxSum expF output)

/-- Model of `std::max(a, b)`: returns the greater of the two, the first argument on
    a tie (`(a < b) ? b : a`).  Written with an explicit comparison so the
    kernel can evaluate it on concrete rationals. -/
def stdMax (a b : ℚ) : ℚ :=
  if a < b then b else a

/-- Second loop of `verifyOutput`, running-maximum part:
    `val = std::max(val, output[i]); if (val == output[i]) idx = i;`
    starting from `val = 0.0F`, `idx = 0`, with `i` the running position. -/
def verifyLoopAux : List ℚ → ℚ → ℕ → ℕ → ℚ × ℕ
  | [], val, idx, _ => (val, idx)
  | p :: rest, val, idx, i =>
      verifyLoopAux rest (stdMax val p) (if stdMax val p = p then i else idx) (i + 1)

/-- The running-maximum loop of `verifyOutput` on the softmaxed vector,
    with the initial values `val = 0.0F`, `idx = 0` of the source. -/
def verifyLoop (ps : List ℚ) : ℚ × ℕ :=
  verifyLoopAux ps 0 0 0

/-- The member function `SampleOnnxMNIST::verifyOutput`: softmax the raw scores, take the
    running maximum and its (last) index, and
    `return idx == mNumber && val > 0.9F;`. -/
def verifyOutput (expF : ℚ → ℚ) (output : List ℚ) (mNumber : ℕ) : Bool :=
  let ps := softmaxProbs expF output
  let r := verifyLoop ps
  decide (r.2 = mNumber) && decide ((9 : ℚ) / 10 < r.1)

/-- Spec-side notion: index `n` attains the maximum of the list
    (the "index of the maximal softmax probability"). -/
def attainsMax (ps : List ℚ) (n : ℕ) : Prop :=
  n < ps.length ∧ ∀ k, k < ps.length → ps.getD k 0 ≤ ps.getD n 0

/-! ### Command-line arguments and parameters -/

/-- Modelled from the spec: the fields of `samplesCommon::Args` (declared in
    the samples' shared `argsParser.h`, which is not under `src/`) that
    `initializeSampleParams` reads; each CLI flag populates one field. -/
structure Args where
  dataDirs : List String
  useDLACore : Int
  runInInt8 : Bool
  runInFp16 : Bool
  runInBf16 : Bool
  timingCacheFile : String
  saveEngine : String
  loadEngine : String
  deriving DecidableEq, Repr

/-- The struct `sampleOnnxMNISTParams`, including the inherited
    `samplesCommon::OnnxSampleParams` fields used by the sample. -/
structure SampleParams where
  dataDirs : List String
  onnxFileName : String
  inputTensorNames : List String
  outputTensorNames : List String
  dlaCore : Int
  int8 : Bool
  fp16 : Bool
  bf16 : Bool
  timingCacheFile : String
  saveEngine : String
  loadEngine : String
  deriving DecidableEq, Repr

/-- The function `initializeSampleParams`: populates the parameter struct from the
    command-line args, with default data directories when none given. -/
def initializeSampleParams (args : Args) : SampleParams :=
  { dataDirs := if args.dataDirs = [] then ["data/mnist/", "data/samples/mnist/"]
                else args.dataDirs
    onnxFileName := "mnist.onnx"
    inputTensorNames := ["Input3"]
    outputTensorNames := ["Plus214_Output_0"]
    dlaCore := args.useDLACore
    int8 := args.runInInt8
    fp16 := args.runInFp16
    bf16 := args.runInBf16
    timingCacheFile := args.timingCacheFile
    saveEngine := args.saveEngine
    loadEngine := args.loadEngine }

/-- The member function `SampleOnnxMNIST::checkEngineLoad`: `return(!mParams.loadEngine.empty());` -/
def checkEngineLoad (p : SampleParams) : Bool :=
  !(p.loadEngine == "")

/-! ### Vendor-call events and oracles -/

/-- One vendor/library call performed by the sample, with the data the
    sample passes to it where a claim depends on that data. -/
inductive Ev where
  | createBuilder
  | createNetwork
  | createConfig
  | createParser
  | parseModel
  | setFP16
  | setBF16
  | setINT8
  | setDynamicRanges
  | buildTimingCache
  | enableDLA (core : Int)
  | makeCudaStream
  | setProfileStream
  | buildSerializedNetwork
  | updateTimingCache
  | createRuntime
  | deserializeEngine
  | saveEngineFile (path : String)
  | openEngineFile (path : String)
  | readEngineFile (nbytes : ℕ)
  | setDLACore (core : Int)
  | deserializeWith (data : List ℕ) (size : ℕ)
  | createContext
  | setTensorAddresses
  | readInputFile (name : String) (h w : ℕ)
  | copyInputToDevice
  | executeV2
  | copyOutputToHost
  | verifyOutputCall
  deriving DecidableEq, Repr

/-- Modelled from the spec: the `ASSERT` macro of the samples' shared common
    code (not under `src/`) terminates the process when its condition is
    false.  A member function therefore either returns a boolean, aborts on
    a failed `ASSERT`, or crashes: `infer` dereferences `mEngine` at once
    (in the `BufferManager` constructor and `createExecutionContext`), so a
    null engine is a null-pointer dereference that kills the process
    (undefined behaviour, modelled as the `crash` outcome). -/
inductive BRes where
  | ok (b : Bool)
  | abort
  | crash
  deriving DecidableEq, Repr

/-- Outcomes of the vendor calls made on the build path: whether each
    factory/build call returned a non-null object, and the I/O shape of the
    parsed network read back by the `ASSERT`s at the end of `build`. -/
structure BuildOracle where
  createBuilderOk : Bool
  createNetworkOk : Bool
  createConfigOk : Bool
  createParserOk : Bool
  parseOk : Bool
  timingCacheBuilt : Bool
  makeStreamOk : Bool
  planOk : Bool
  createRuntimeOk : Bool
  deserializeOk : Bool
  saveOk : Bool
  nbInputs : ℕ
  inputNbDims : ℕ
  nbOutputs : ℕ
  outputNbDims : ℕ
  deriving DecidableEq, Repr

/-- Outcomes of the calls made by `loadV3`: whether the final stream read
    succeeded, whether `createInferRuntime` and `deserializeCudaEngine`
    returned non-null objects.  (The file itself is modelled separately as
    an `Option (List ℕ)`: `none` when opening the file fails.) -/
structure LoadOracle where
  readOk : Bool
  createRuntimeOk : Bool
  deserializeOk : Bool
  deriving DecidableEq, Repr

/-- Outcomes of the calls made by `infer`, together with the data flowing
    through them: the `rand()` value used by `processInput`, the PGM bytes
    read, the raw output scores produced by the engine, and the C library
    `exp` used by `verifyOutput`. -/
structure InferOracle where
  createContextOk : Bool
  randVal : ℕ
  fileData : List ℕ
  executeOk : Bool
  outputs : List ℚ
  expF : ℚ → ℚ

/-! ### The sample's member functions -/

/-- The member function `SampleOnnxMNIST::constructNetwork`: parse the ONNX model, then set the
    builder flags requested by the parameters, optionally build a timing
    cache, and enable DLA with `mParams.dlaCore`.  Returns its boolean
    result and the vendor calls performed. -/
def constructNetwork (p : SampleParams) (ob : BuildOracle) : Bool × List Ev :=
  if !ob.parseOk then (false, [.parseModel])
  else
    (true,
      [Ev.parseModel]
        ++ (if p.fp16 then [Ev.setFP16] else [])
        ++ (if p.bf16 then [Ev.setBF16] else [])
        ++ (if p.int8 then [Ev.setINT8, Ev.setDynamicRanges] else [])
        ++ (if p.timingCacheFile ≠ "" then [Ev.buildTimingCache] else [])
        ++ [Ev.enableDLA p.dlaCore])

/-- An early-return step of a member function: `if (!ok) { return ...; }`,
    and otherwise continue with the rest of the body. -/
def guardStep (ok : Bool) (fail k : BRes × Bool × List Ev) : BRes × Bool × List Ev :=
  if !ok then fail else k

/-- Modelled from the spec: `ASSERT(cond);` from the samples' shared common
    code (not under `src/`) aborts the process when `cond` is false, and
    otherwise continues with the rest of the body; `t` is the trace of
    vendor calls performed up to the assertion. -/
def assertStep (cond : Bool) (t : List Ev) (k : BRes × Bool × List Ev) : BRes × Bool × List Ev :=
  if cond then k else (.abort, true, t)

/-- The four factory calls at the head of `build`. -/
def buildPre : List Ev :=
  [.createBuilder, .createNetwork, .createConfig, .createParser]

/-- Trace of `build` up to and including `buildSerializedNetwork`. -/
def buildT1 (p : SampleParams) (ob : BuildOracle) : List Ev :=
  buildPre ++ (constructNetwork p ob).2
    ++ [.makeCudaStream, .setProfileStream, .buildSerializedNetwork]

/-- Trace of `build` after the conditional timing-cache update
    (`if (timingCache != nullptr && !mParams.timingCacheFile.empty())`). -/
def buildT2 (p : SampleParams) (ob : BuildOracle) : List Ev :=
  buildT1 p ob
    ++ (if p.timingCacheFile ≠ "" ∧ ob.timingCacheBuilt then [Ev.updateTimingCache] else [])

/-- Trace of `build` up to and including `deserializeCudaEngine`. -/
def buildT3 (p : SampleParams) (ob : BuildOracle) : List Ev :=
  buildT2 p ob ++ [.createRuntime, .deserializeEngine]

/-- Trace of `build` up to and including the `sample::saveEngine` call,
    which always receives `mParams.saveEngine` as the file name. -/
def buildT4 (p : SampleParams) (ob : BuildOracle) : List Ev :=
  buildT3 p ob ++ [.saveEngineFile p.saveEngine]

/-- The member function `SampleOnnxMNIST::build`: result, whether `mEngine` is set (non-null),
    and the vendor calls performed, in order.  Each `guardStep` is one
    `if (!...) { return false; }` of the source, in source order; the four
    final `assertStep`s are the `ASSERT`s on the network I/O shape, which
    abort instead of returning. -/
def build (p : SampleParams) (ob : BuildOracle) : BRes × Bool × List Ev :=
  guardStep ob.createBuilderOk (.ok false, false, [.createBuilder])
  (guardStep ob.createNetworkOk (.ok false, false, [.createBuilder, .createNetwork])
  (guardStep ob.createConfigOk (.ok false, false, [.createBuilder, .createNetwork, .createConfig])
  (guardStep ob.createParserOk (.ok false, false, buildPre)
  (guardStep (constructNetwork p ob).1 (.ok false, false, buildPre ++ (constructNetwork p ob).2)
  (guardStep ob.makeStreamOk
    (.ok false, false, buildPre ++ (constructNetwork p ob).2 ++ [.makeCudaStream])
  (guardStep ob.planOk (.ok false, false, buildT1 p ob)
  (guardStep ob.createRuntimeOk (.ok false, false, buildT2 p ob ++ [.createRuntime])
  (guardStep ob.deserializeOk (.ok false, false, buildT3 p ob)
  (guardStep ob.saveOk (.ok false, true, buildT4 p ob)
  (assertStep (ob.nbInputs == 1) (buildT4 p ob)
  (assertStep (ob.inputNbDims == 4) (buildT4 p ob)
  (assertStep (ob.nbOutputs == 1) (buildT4 p ob)
  (assertStep (ob.outputNbDims == 2) (buildT4 p ob)
  (.ok true, true, buildT4 p ob))))))))))))))

/-- The member function `SampleOnnxMNIST::loadV3`: open the engine file (`file = none` models a
    failed open), `seekg`/`tellg` its size, read that many bytes from the
    beginning, create a runtime, and deserialize.  The local `DLACore` is
    hardcoded to `-1`, and the results of `createInferRuntime` and
    `deserializeCudaEngine` are not checked: the function returns `true`
    whenever open and read succeeded.  Returns (boolean result, whether
    `mEngine` ended up non-null, vendor calls performed). -/
def loadV3 (p : SampleParams) (file : Option (List ℕ)) (ol : LoadOracle) :
    Bool × Bool × List Ev :=
  match file with
  | none => (false, false, [.openEngineFile p.loadEngine])
  | some contents =>
    let fsize := contents.length
    let engineData := contents.take fsize
    if !ol.readOk then (false, false, [.openEngineFile p.loadEngine, .readEngineFile fsize])
    else
      let dlacore : Int := -1
      (true, ol.deserializeOk,
        [Ev.openEngineFile p.loadEngine, Ev.readEngineFile fsize, Ev.createRuntime]
          ++ (if dlacore ≠ -1 then [Ev.setDLACore dlacore] else [])
          ++ [Ev.deserializeWith engineData fsize])

/-- The member function `SampleOnnxMNIST::processInput`: `mNumber = rand() % 10;`, read
    `<mNumber>.pgm` as a 28x28 8-bit image, and fill the host buffer with
    `1.0 - fileData[i] / 255.0`.  Returns (boolean result, `mNumber`,
    host buffer, events). -/
def processInput (randVal : ℕ) (fileData : List ℕ) :
    Bool × ℕ × List ℚ × List Ev :=
  let inputH : ℕ := 28
  let inputW : ℕ := 28
  let mNumber := randVal % 10
  (true, mNumber, fileData.map (fun b => 1 - (b : ℚ) / 255),
    [.readInputFile (Nat.repr mNumber ++ ".pgm") inputH inputW])

/-- The member function `SampleOnnxMNIST::infer`: create an execution context, set the tensor
    addresses, `ASSERT` a single input tensor name, read the input, copy it
    to the device, execute, copy the output back and verify it.  The
    `engineSet` argument records whether `mEngine` was non-null; when it is
    null, the very first statements — `samplesCommon::BufferManager
    buffers(mEngine)` and `mEngine->createExecutionContext()` — dereference
    the null pointer, so the process crashes before any vendor call
    completes and no boolean is returned. -/
def infer (p : SampleParams) (engineSet : Bool) (oi : InferOracle) : BRes × List Ev :=
  if !engineSet then (.crash, []) else
  if !oi.createContextOk then (.ok false, [.createContext]) else
  if p.inputTensorNames.length ≠ 1 then (.abort, [.createContext, .setTensorAddresses]) else
  if !(processInput oi.randVal oi.fileData).1 then
    (.ok false,
      [Ev.createContext, Ev.setTensorAddresses] ++ (processInput oi.randVal oi.fileData).2.2.2) else
  if !oi.executeOk then
    (.ok false,
      [Ev.createContext, Ev.setTensorAddresses] ++ (processInput oi.randVal oi.fileData).2.2.2
        ++ [.copyInputToDevice, .executeV2]) else
  (.ok (verifyOutput oi.expF oi.outputs (processInput oi.randVal oi.fileData).2.1),
    [Ev.createContext, Ev.setTensorAddresses] ++ (processInput oi.randVal oi.fileData).2.2.2
      ++ [.copyInputToDevice, .executeV2, .copyOutputToHost, .verifyOutputCall])

/-! ### `main` -/

/-- Modelled from the spec: process outcomes; pass/fail are reported by the
    vendor-provided test-status logger (`logger.h`, not under `src/`),
    `exitFailure`/`exitSuccess` are the early returns of `main` before any
    test is run, and `abort` is a process abort from a failed `ASSERT`. -/
inductive MainRes where
  | exitFailure
  | exitSuccess
  | reportPass
  | reportFail
  | abort
  | crash
  deriving DecidableEq, Repr

/-- How `main` turns the result of `infer` into a process outcome. -/
def mainResOfBRes : BRes → MainRes
  | .ok true => .reportPass
  | .ok false => .reportFail
  | .abort => .abort
  | .crash => .crash

/-- The function `main`: after argument parsing (`argsOK`, `help`), build the params,
    choose the load path when `checkEngineLoad` holds and the build path
    otherwise, report failure as soon as a step returns false, then run
    `infer` and report its outcome.  (`build` checks its engine and never
    crashes — see `build_ne_crash`; its `crash` case below is required only
    for exhaustiveness.) -/
def mainFlow (argsOK help : Bool) (args : Args) (ob : BuildOracle)
    (file : Option (List ℕ)) (ol : LoadOracle) (oi : InferOracle) :
    MainRes × List Ev :=
  if !argsOK then (.exitFailure, []) else
  if help then (.exitSuccess, []) else
  let p := initializeSampleParams args
  if checkEngineLoad p then
    let l := loadV3 p file ol
    if !l.1 then (.reportFail, l.2.2) else
    let r := infer p l.2.1 oi
    (mainResOfBRes r.1, l.2.2 ++ r.2)
  else
    let b := build p ob
    match b.1 with
    | .abort => (.abort, b.2.2)
    | .crash => (.crash, b.2.2)
    | .ok ok =>
      if !ok then (.reportFail, b.2.2) else
      let r := infer p b.2.1 oi
      (mainResOfBRes r.1, b.2.2 ++ r.2)

/-! ### Stage abstraction for the pipeline-order claim -/

/-- The seven pipeline stages named by the spec. -/
inductive Stage where
  | parse
  | configure
  | buildSerialize
  | deserialize
  | bindBuffers
  | execute
  | postProcess
  deriving DecidableEq, Repr

/-- The representative vendor call of each spec stage: parse =
    `parseFromFile`, configure = the unconditional final configuration call
    `enableDLA`, build/serialize = `buildSerializedNetwork`, deserialize =
    `deserializeCudaEngine`, bind = the `setTensorAddress` loop, execute =
    `executeV2`, post-process = `verifyOutput`. -/
def stageOf : Ev → Option Stage
  | .parseModel => some .parse
  | .enableDLA _ => some .configure
  | .buildSerializedNetwork => some .buildSerialize
  | .deserializeEngine => some .deserialize
  | .setTensorAddresses => some .bindBuffers
  | .executeV2 => some .execute
  | .verifyOutputCall => some .postProcess
  | _ => none

/-- The stages performed by a trace, in order. -/
def stages (t : List Ev) : List Stage :=
  t.filterMap stageOf

/-- The stages of a complete successful build. -/
def buildStages : List Stage :=
  [.parse, .configure, .buildSerialize, .deserialize]

/-- The stages of a complete successful inference. -/
def inferStages : List Stage :=
  [.bindBuffers, .execute, .postProcess]

/-- The spec's canonical stage order for the build path. -/
def canonicalStages : List Stage :=
  buildStages ++ inferStages

/-- Whether an event passes a DLA core index to the vendor API. -/
def usesDLACore (c : Int) : Ev → Bool
  | .enableDLA d => d == c
  | .setDLACore d => d == c
  | _ => false

/-! ### Lemmas: the running-maximum loop -/

theorem stdMax_eq_max (a b : ℚ) : stdMax a b = max a b := by
  rcases lt_or_ge a b with h | h
  · rw [stdMax, if_pos h, max_eq_right h.le]
  · rw [stdMax, if_neg (not_lt.mpr h), max_eq_left h]

theorem foldl_max_init_le (l : List ℚ) : ∀ a : ℚ, a ≤ l.foldl max a := by
  induction l with
  | nil => intro a; exact le_refl a
  | cons p rest ih =>
    intro a
    exact le_trans (le_max_left a p) (ih (max a p))

theorem le_foldl_max_of_mem {l : List ℚ} {x : ℚ} (hx : x ∈ l) :
    ∀ a : ℚ, x ≤ l.foldl max a := by
  induction l with
  | nil => cases hx
  | cons p rest ih =>
    intro a
    rw [List.foldl_cons]
    rcases List.mem_cons.mp hx with rfl | h
    · exact le_trans (le_max_right _ _) (foldl_max_init_le rest _)
    · exact ih h (max a p)

theorem foldl_max_of_all_lt {l : List ℚ} : ∀ {a : ℚ}, (∀ x ∈ l, x < a) →
    l.foldl max a = a := by
  induction l with
  | nil => intro a _; rfl
  | cons p rest ih =>
    intro a h
    have hp : max a p = a := max_eq_left (h p (List.mem_cons_self p rest)).le
    show rest.foldl max (max a p) = a
    rw [hp]
    exact ih fun x hx => h x (List.mem_cons_of_mem p hx)

theorem verifyLoopAux_fst (l : List ℚ) : ∀ (val : ℚ) (idx i : ℕ),
    (verifyLoopAux l val idx i).1 = l.foldl max val := by
  induction l with
  | nil => intro val idx i; rfl
  | cons p rest ih =>
    intro val idx i
    show (verifyLoopAux rest (stdMax val p) _ (i + 1)).1 = rest.foldl max (max val p)
    rw [ih, stdMax_eq_max]

theorem verifyLoopAux_snd_of_all_lt (l : List ℚ) : ∀ (val : ℚ) (idx i : ℕ),
    (∀ x ∈ l, x < val) → (verifyLoopAux l val idx i).2 = idx := by
  induction l with
  | nil => intro val idx i _; rfl
  | cons p rest ih =>
    intro val idx i h
    have hp : p < val := h p (List.mem_cons_self p rest)
    have hm : stdMax val p = val := by rw [stdMax_eq_max]; exact max_eq_left hp.le
    show (verifyLoopAux rest (stdMax val p) (if stdMax val p = p then i else idx) (i + 1)).2 = idx
    rw [hm, if_neg (ne_of_gt hp)]
    exact ih val idx (i + 1) fun x hx => h x (List.mem_cons_of_mem p hx)

theorem getD_mem_of_lt {l : List ℚ} : ∀ {k : ℕ}, k < l.length → l.getD k 0 ∈ l := by
  induction l with
  | nil => intro k h; cases h
  | cons p rest ih =>
    intro k h
    cases k with
    | zero => exact List.mem_cons_self p rest
    | succ k =>
      rw [List.getD_cons_succ]
      exact List.mem_cons_of_mem p (ih (Nat.lt_of_succ_lt_succ h))

theorem verifyLoopAux_spec (l : List ℚ) : ∀ (val : ℚ) (idx i : ℕ),
    (∃ x ∈ l, val ≤ x) →
    ∃ j, j < l.length ∧ (verifyLoopAux l val idx i).2 = i + j ∧
      l.getD j 0 = (verifyLoopAux l val idx i).1 ∧
      ∀ k, j < k → k < l.length → l.getD k 0 < (verifyLoopAux l val idx i).1 := by
  induction l with
  | nil =>
    intro val idx i h
    rcases h with ⟨x, hx, _⟩
    cases hx
  | cons p rest ih =>
    intro val idx i h
    have hstep : verifyLoopAux (p :: rest) val idx i
        = verifyLoopAux rest (stdMax val p) (if stdMax val p = p then i else idx) (i + 1) := rfl
    by_cases hr : ∃ x ∈ rest, stdMax val p ≤ x
    · rcases ih (stdMax val p) (if stdMax val p = p then i else idx) (i + 1) hr with
        ⟨j, hj, hidx, hget, hlt⟩
      refine ⟨j + 1, Nat.succ_lt_succ hj, ?_, ?_, ?_⟩
      · rw [hstep, hidx]; omega
      · rw [hstep, List.getD_cons_succ]; exact hget
      · intro k hk hk'
        cases k with
        | zero => cases hk
        | succ k =>
          rw [hstep, List.getD_cons_succ]
          exact hlt k (Nat.lt_of_succ_lt_succ hk) (Nat.lt_of_succ_lt_succ hk')
    · push_neg at hr
      have hvp : val ≤ p := by
        rcases h with ⟨x, hx, hvx⟩
        rcases List.mem_cons.mp hx with rfl | hx'
        · exact hvx
        · have h1 := hr x hx'
          by_contra hnp
          have : stdMax val p = val := by
            rw [stdMax_eq_max]; exact max_eq_left (le_of_not_le hnp)
          rw [this] at h1
          exact absurd hvx (not_le.mpr h1)
      have hm : stdMax val p = p := by rw [stdMax_eq_max]; exact max_eq_right hvp
      have hrest : ∀ x ∈ rest, x < p := by
        intro x hx
        have := hr x hx
        rwa [hm] at this
      have hval : (verifyLoopAux (p :: rest) val idx i).1 = p := by
        rw [verifyLoopAux_fst]
        show rest.foldl max (max val p) = p
        rw [max_eq_right hvp]
        exact foldl_max_of_all_lt hrest
      refine ⟨0, Nat.succ_pos _, ?_, ?_, ?_⟩
      · rw [hstep, hm, if_pos rfl, Nat.add_zero]
        exact verifyLoopAux_snd_of_all_lt rest p i (i + 1) hrest
      · rw [List.getD_cons_zero, hval]
      · intro k hk hk'
        cases k with
        | zero => cases hk
        | succ k =>
          rw [List.getD_cons_succ, hval]
          exact hrest _ (getD_mem_of_lt (Nat.lt_of_succ_lt_succ hk'))

theorem verifyLoop_spec (ps : List ℚ) (h0 : ∃ x ∈ ps, (0 : ℚ) ≤ x) :
    (verifyLoop ps).2 < ps.length ∧
    ps.getD (verifyLoop ps).2 0 = (verifyLoop ps).1 ∧
    (∀ x ∈ ps, x ≤ (verifyLoop ps).1) ∧
    ∀ k, (verifyLoop ps).2 < k → k < ps.length → ps.getD k 0 < (verifyLoop ps).1 := by
  rcases verifyLoopAux_spec ps 0 0 0 h0 with ⟨j, hj, hidx, hget, hlt⟩
  have hidx' : (verifyLoop ps).2 = j := by rw [verifyLoop, hidx, Nat.zero_add]
  refine ⟨hidx' ▸ hj, ?_, ?_, ?_⟩
  · rw [hidx']; exact hget
  · intro x hx
    rw [verifyLoop, verifyLoopAux_fst]
    exact le_foldl_max_of_mem hx 0
  · intro k hk hk'
    rw [hidx'] at hk
    exact hlt k hk hk'

/-! ### Lemmas: sums and the softmax vector -/

theorem foldl_add_shift (l : List ℚ) : ∀ a : ℚ, l.foldl (· + ·) a = a + l.foldl (· + ·) 0 := by
  induction l with
  | nil => intro a; simp
  | cons p rest ih =>
    intro a
    rw [List.foldl_cons, List.foldl_cons, ih (a + p), ih (0 + p), zero_add, add_assoc]

theorem foldl_add_nonneg {l : List ℚ} (h : ∀ x ∈ l, 0 ≤ x) : 0 ≤ l.foldl (· + ·) 0 := by
  induction l with
  | nil => exact le_refl 0
  | cons p rest ih =>
    rw [List.foldl_cons, foldl_add_shift, zero_add]
    have hp := h p (List.mem_cons_self p rest)
    have hr := ih fun x hx => h x (List.mem_cons_of_mem p hx)
    linarith

theorem foldl_add_pos {l : List ℚ} (h : ∀ x ∈ l, 0 < x) (hne : l ≠ []) :
    0 < l.foldl (· + ·) 0 := by
  cases l with
  | nil => exact absurd rfl hne
  | cons p rest =>
    rw [List.foldl_cons, foldl_add_shift, zero_add]
    have hp := h p (List.mem_cons_self p rest)
    have hr := foldl_add_nonneg fun x hx => (h x (List.mem_cons_of_mem p hx)).le
    linarith

theorem getD_le_foldl_add {l : List ℚ} (h : ∀ x ∈ l, 0 ≤ x) :
    ∀ {k : ℕ}, k < l.length → l.getD k 0 ≤ l.foldl (· + ·) 0 := by
  induction l with
  | nil => intro k hk; cases hk
  | cons p rest ih =>
    intro k hk
    rw [List.foldl_cons, foldl_add_shift, zero_add]
    have hr0 : 0 ≤ rest.foldl (· + ·) 0 :=
      foldl_add_nonneg fun x hx => h x (List.mem_cons_of_mem p hx)
    cases k with
    | zero =>
      rw [List.getD_cons_zero]
      linarith
    | succ k =>
      rw [List.getD_cons_succ]
      have hp := h p (List.mem_cons_self p rest)
      have := ih (fun x hx => h x (List.mem_cons_of_mem p hx)) (Nat.lt_of_succ_lt_succ hk)
      linarith

theorem getD_two_le_foldl_add {l : List ℚ} (h : ∀ x ∈ l, 0 ≤ x) :
    ∀ {n j : ℕ}, n < j → j < l.length →
      l.getD n 0 + l.getD j 0 ≤ l.foldl (· + ·) 0 := by
  induction l with
  | nil => intro n j _ hj; cases hj
  | cons p rest ih =>
    intro n j hnj hj
    rw [List.foldl_cons, foldl_add_shift, zero_add]
    cases j with
    | zero => cases hnj
    | succ j =>
      cases n with
      | zero =>
        rw [List.getD_cons_zero, List.getD_cons_succ]
        have := getD_le_foldl_add (fun x hx => h x (List.mem_cons_of_mem p hx))
          (Nat.lt_of_succ_lt_succ hj)
        linarith
      | succ n =>
        rw [List.getD_cons_succ, List.getD_cons_succ]
        have hp := h p (List.mem_cons_self p rest)
        have := ih (fun x hx => h x (List.mem_cons_of_mem p hx))
          (Nat.lt_of_succ_lt_succ hnj) (Nat.lt_of_succ_lt_succ hj)
        linarith

theorem foldl_add_map_div (l : List ℚ) (s : ℚ) :
    (l.map (fun e => e / s)).foldl (· + ·) 0 = l.foldl (· + ·) 0 / s := by
  induction l with
  | nil => simp
  | cons p rest ih =>
    rw [List.map_cons, List.foldl_cons, List.foldl_cons,
      foldl_add_shift (rest.map fun e => e / s) (0 + p / s),
      foldl_add_shift rest (0 + p), ih, zero_add, zero_add, add_div]

theorem softmaxProbs_length (expF : ℚ → ℚ) (output : List ℚ) :
    (softmaxProbs expF output).length = output.length := by
  simp [softmaxProbs]

theorem softmaxSum_pos {expF : ℚ → ℚ} {output : List ℚ}
    (hpos : ∀ x ∈ output, 0 < expF x) (hne : output ≠ []) :
    0 < softmaxSum expF output := by
  refine foldl_add_pos ?_ ?_
  · intro x hx
    rcases List.mem_map.mp hx with ⟨y, hy, rfl⟩
    exact hpos y hy
  · simpa using hne

theorem softmaxProbs_pos {expF : ℚ → ℚ} {output : List ℚ}
    (hpos : ∀ x ∈ output, 0 < expF x) (hne : output ≠ []) :
    ∀ q ∈ softmaxProbs expF output, 0 < q := by
  intro q hq
  rcases List.mem_map.mp hq with ⟨e, he, rfl⟩
  rcases List.mem_map.mp he with ⟨y, hy, rfl⟩
  exact div_pos (hpos y hy) (softmaxSum_pos hpos hne)

theorem softmaxProbs_sum {expF : ℚ → ℚ} {output : List ℚ}
    (hpos : ∀ x ∈ output, 0 < expF x) (hne : output ≠ []) :
    (softmaxProbs expF output).foldl (· + ·) 0 = 1 := by
  rw [softmaxProbs, foldl_add_map_div]
  exact div_self (ne_of_gt (softmaxSum_pos hpos hne))

/-- The functional characterization of `verifyOutput`: it returns `true`
    exactly when `mNumber` attains the maximal softmax probability and that
    probability exceeds 9/10.  (When the maximum exceeds 9/10 its index is
    unique, because the softmax probabilities are positive and sum to 1.) -/
theorem verifyOutput_true_iff (expF : ℚ → ℚ) (output : List ℚ) (n : ℕ)
    (hlen : output.length = 10) (hpos : ∀ x ∈ output, 0 < expF x) :
    verifyOutput expF output n = true ↔
      attainsMax (softmaxProbs expF output) n ∧
        9 / 10 < (softmaxProbs expF output).getD n 0 := by
  have hne : output ≠ [] := by
    intro h
    rw [h] at hlen
    cases hlen
  have hpslen : (softmaxProbs expF output).length = 10 := by
    rw [softmaxProbs_length, hlen]
  have hppos : ∀ q ∈ softmaxProbs expF output, 0 < q := softmaxProbs_pos hpos hne
  have hpsne : softmaxProbs expF output ≠ [] := by
    intro h
    rw [h] at hpslen
    cases hpslen
  have hex : ∃ x ∈ softmaxProbs expF output, (0 : ℚ) ≤ x := by
    rcases List.exists_mem_of_ne_nil _ hpsne with ⟨q, hq⟩
    exact ⟨q, hq, (hppos q hq).le⟩
  rcases verifyLoop_spec _ hex with ⟨hjlen, hjget, hjmax, hjlast⟩
  have hshow : verifyOutput expF output n =
      (decide ((verifyLoop (softmaxProbs expF output)).2 = n) &&
        decide ((9 : ℚ) / 10 < (verifyLoop (softmaxProbs expF output)).1)) := rfl
  rw [hshow, Bool.and_eq_true, decide_eq_true_eq, decide_eq_true_eq]
  constructor
  · rintro ⟨hidx, hval⟩
    rw [← hidx]
    refine ⟨⟨hjlen, ?_⟩, ?_⟩
    · intro k hk
      rw [hjget]
      exact hjmax _ (getD_mem_of_lt hk)
    · rw [hjget]; exact hval
  · rintro ⟨⟨hn, hmax⟩, hbig⟩
    have hidx : (verifyLoop (softmaxProbs expF output)).2 = n := by
      rcases Nat.lt_trichotomy (verifyLoop (softmaxProbs expF output)).2 n with h | h | h
      · -- the loop index is before n: then getD n < loop max = getD idx ≤ getD n
        have h1 : (softmaxProbs expF output).getD n 0
            < (verifyLoop (softmaxProbs expF output)).1 := hjlast n h hn
        have h2 : (softmaxProbs expF output).getD (verifyLoop (softmaxProbs expF output)).2 0
            ≤ (softmaxProbs expF output).getD n 0 := hmax _ hjlen
        rw [hjget] at h2
        exact absurd (lt_of_le_of_lt h2 h1) (lt_irrefl _)
      · exact h
      · -- n is before the loop index: both attain the maximum, contradicting sum = 1
        have h1 : (verifyLoop (softmaxProbs expF output)).1
            ≤ (softmaxProbs expF output).getD n 0 := by
          rw [← hjget]
          exact hmax _ hjlen
        have h2 : (softmaxProbs expF output).getD n 0
            ≤ (verifyLoop (softmaxProbs expF output)).1 := hjmax _ (getD_mem_of_lt hn)
        have heq : (softmaxProbs expF output).getD n 0
            = (verifyLoop (softmaxProbs expF output)).1 := le_antisymm h2 h1
        have hsum2 : (softmaxProbs expF output).getD n 0
              + (softmaxProbs expF output).getD (verifyLoop (softmaxProbs expF output)).2 0
            ≤ (softmaxProbs expF output).foldl (· + ·) 0 :=
          getD_two_le_foldl_add (fun x hx => (hppos x hx).le) h hjlen
        rw [softmaxProbs_sum hpos hne, hjget, ← heq] at hsum2
        rw [heq] at hbig
        linarith
    refine ⟨hidx, ?_⟩
    rw [← hjget, hidx]
    exact hbig

/-! ### Lemmas: which events each path performs -/

theorem initializeSampleParams_loadEngine (args : Args) :
    (initializeSampleParams args).loadEngine = args.loadEngine := rfl

theorem initializeSampleParams_saveEngine (args : Args) :
    (initializeSampleParams args).saveEngine = args.saveEngine := rfl

theorem checkEngineLoad_iff (p : SampleParams) :
    checkEngineLoad p = true ↔ p.loadEngine ≠ "" := by
  simp [checkEngineLoad]

theorem constructNetwork_no_openEngineFile (p : SampleParams) (ob : BuildOracle) (s : String) :
    Ev.openEngineFile s ∉ (constructNetwork p ob).2 := by
  unfold constructNetwork
  split_ifs <;> simp

theorem guardStep_false (fail k : BRes × Bool × List Ev) :
    guardStep false fail k = fail := rfl

theorem guardStep_true (fail k : BRes × Bool × List Ev) :
    guardStep true fail k = k := rfl

theorem assertStep_false (t : List Ev) (k : BRes × Bool × List Ev) :
    assertStep false t k = (.abort, true, t) := rfl

theorem assertStep_true (t : List Ev) (k : BRes × Bool × List Ev) :
    assertStep true t k = k := rfl

/-- Branch analysis for `build`: to prove a property of its result it
    suffices to prove it for each early return, for the abort of a failed
    `ASSERT`, and for the successful return.  Each hypothesis receives the
    guard facts needed to know its branch is reachable. -/
theorem buildP (p : SampleParams) (ob : BuildOracle) (P : BRes × Bool × List Ev → Prop)
    (h1 : P (.ok false, false, [.createBuilder]))
    (h2 : P (.ok false, false, [.createBuilder, .createNetwork]))
    (h3 : P (.ok false, false, [.createBuilder, .createNetwork, .createConfig]))
    (h4 : P (.ok false, false, buildPre))
    (h5 : (constructNetwork p ob).1 = false →
      P (.ok false, false, buildPre ++ (constructNetwork p ob).2))
    (h6 : (constructNetwork p ob).1 = true →
      P (.ok false, false, buildPre ++ (constructNetwork p ob).2 ++ [.makeCudaStream]))
    (h7 : (constructNetwork p ob).1 = true → P (.ok false, false, buildT1 p ob))
    (h8 : (constructNetwork p ob).1 = true →
      P (.ok false, false, buildT2 p ob ++ [.createRuntime]))
    (h9 : (constructNetwork p ob).1 = true → P (.ok false, false, buildT3 p ob))
    (h10 : (constructNetwork p ob).1 = true → ob.deserializeOk = true →
      P (.ok false, true, buildT4 p ob))
    (h11 : (constructNetwork p ob).1 = true → ob.deserializeOk = true →
      ob.saveOk = true → P (.abort, true, buildT4 p ob))
    (h12 : (constructNetwork p ob).1 = true → ob.deserializeOk = true →
      ob.saveOk = true → (ob.nbInputs == 1) = true → (ob.inputNbDims == 4) = true →
      (ob.nbOutputs == 1) = true → (ob.outputNbDims == 2) = true →
      P (.ok true, true, buildT4 p ob)) :
    P (build p ob) := by
  rw [build]
  cases ob.createBuilderOk
  · rw [guardStep_false]; exact h1
  · rw [guardStep_true]
    cases ob.createNetworkOk
    · rw [guardStep_false]; exact h2
    · rw [guardStep_true]
      cases ob.createConfigOk
      · rw [guardStep_false]; exact h3
      · rw [guardStep_true]
        cases ob.createParserOk
        · rw [guardStep_false]; exact h4
        · rw [guardStep_true]
          cases hcn : (constructNetwork p ob).1
          · rw [guardStep_false]; exact h5 hcn
          · rw [guardStep_true]
            cases ob.makeStreamOk
            · rw [guardStep_false]; exact h6 hcn
            · rw [guardStep_true]
              cases ob.planOk
              · rw [guardStep_false]; exact h7 hcn
              · rw [guardStep_true]
                cases ob.createRuntimeOk
                · rw [guardStep_false]; exact h8 hcn
                · rw [guardStep_true]
                  cases hde : ob.deserializeOk
                  · rw [guardStep_false]; exact h9 hcn
                  · rw [guardStep_true]
                    cases hsv : ob.saveOk
                    · rw [guardStep_false]; exact h10 hcn hde
                    · rw [guardStep_true]
                      cases ha1 : ob.nbInputs == 1
                      · rw [assertStep_false]; exact h11 hcn hde hsv
                      · rw [assertStep_true]
                        cases ha2 : ob.inputNbDims == 4
                        · rw [assertStep_false]; exact h11 hcn hde hsv
                        · rw [assertStep_true]
                          cases ha3 : ob.nbOutputs == 1
                          · rw [assertStep_false]; exact h11 hcn hde hsv
                          · rw [assertStep_true]
                            cases ha4 : ob.outputNbDims == 2
                            · rw [assertStep_false]; exact h11 hcn hde hsv
                            · rw [assertStep_true]
                              exact h12 hcn hde hsv ha1 ha2 ha3 ha4

theorem build_mem_createBuilder (p : SampleParams) (ob : BuildOracle) :
    Ev.createBuilder ∈ (build p ob).2.2 := by
  refine buildP p ob (fun r => Ev.createBuilder ∈ r.2.2) ?_ ?_ ?_ ?_ ?_ ?_ ?_ ?_ ?_ ?_ ?_ ?_ <;>
    intros <;>
    simp [buildPre, buildT1, buildT2, buildT3, buildT4]

theorem build_no_openEngineFile (p : SampleParams) (ob : BuildOracle) (s : String) :
    Ev.openEngineFile s ∉ (build p ob).2.2 := by
  refine buildP p ob (fun r => Ev.openEngineFile s ∉ r.2.2) ?_ ?_ ?_ ?_ ?_ ?_ ?_ ?_ ?_ ?_ ?_ ?_ <;>
    intros <;>
    simp [buildPre, buildT1, buildT2, buildT3, buildT4,
      constructNetwork_no_openEngineFile p ob s]

theorem build_ne_crash (p : SampleParams) (ob : BuildOracle) :
    (build p ob).1 ≠ .crash := by
  refine buildP p ob (fun r => r.1 ≠ .crash) ?_ ?_ ?_ ?_ ?_ ?_ ?_ ?_ ?_ ?_ ?_ ?_ <;>
    intros <;> simp

theorem loadV3_mem_openEngineFile (p : SampleParams) (file : Option (List ℕ)) (ol : LoadOracle) :
    Ev.openEngineFile p.loadEngine ∈ (loadV3 p file ol).2.2 := by
  unfold loadV3
  cases file <;> split_ifs <;> simp

theorem loadV3_no_createBuilder (p : SampleParams) (file : Option (List ℕ)) (ol : LoadOracle) :
    Ev.createBuilder ∉ (loadV3 p file ol).2.2 := by
  unfold loadV3
  cases file <;> split_ifs <;> simp

theorem infer_no_createBuilder (p : SampleParams) (es : Bool) (oi : InferOracle) :
    Ev.createBuilder ∉ (infer p es oi).2 := by
  unfold infer
  split_ifs <;> simp [processInput]

theorem infer_no_openEngineFile (p : SampleParams) (es : Bool) (oi : InferOracle) (s : String) :
    Ev.openEngineFile s ∉ (infer p es oi).2 := by
  unfold infer
  split_ifs <;> simp [processInput]

theorem loadV3_fst (p : SampleParams) (file : Option (List ℕ)) (ol : LoadOracle) :
    (loadV3 p file ol).1 = (file.isSome && ol.readOk) := by
  unfold loadV3
  cases file <;> split_ifs <;> simp_all

/-! ### Lemmas: pipeline stages -/

theorem stages_append (t1 t2 : List Ev) : stages (t1 ++ t2) = stages t1 ++ stages t2 := by
  simp [stages]

theorem stages_constructNetwork_of_ok (p : SampleParams) (ob : BuildOracle)
    (h : (constructNetwork p ob).1 = true) :
    stages (constructNetwork p ob).2 = [Stage.parse, Stage.configure] := by
  unfold constructNetwork at h ⊢
  split_ifs at h ⊢ <;> simp_all [stages, stageOf]

theorem stages_constructNetwork_isPrefix (p : SampleParams) (ob : BuildOracle) :
    stages (constructNetwork p ob).2 <+: [Stage.parse, Stage.configure] := by
  cases hp : ob.parseOk
  · have hc : constructNetwork p ob = (false, [.parseModel]) := by
      simp [constructNetwork, hp]
    rw [hc]
    exact ⟨[Stage.configure], rfl⟩
  · have hcn : (constructNetwork p ob).1 = true := by
      simp [constructNetwork, hp]
    rw [stages_constructNetwork_of_ok p ob hcn]

theorem stages_buildPre : stages buildPre = [] := rfl

theorem stages_buildT1_of_ok (p : SampleParams) (ob : BuildOracle)
    (h : (constructNetwork p ob).1 = true) :
    stages (buildT1 p ob) = [Stage.parse, Stage.configure, Stage.buildSerialize] := by
  rw [buildT1, stages_append, stages_append, stages_buildPre,
    stages_constructNetwork_of_ok p ob h]
  rfl

theorem stages_buildT2_of_ok (p : SampleParams) (ob : BuildOracle)
    (h : (constructNetwork p ob).1 = true) :
    stages (buildT2 p ob) = [Stage.parse, Stage.configure, Stage.buildSerialize] := by
  rw [buildT2, stages_append, stages_buildT1_of_ok p ob h]
  split_ifs <;> simp [stages, stageOf]

theorem stages_buildT4_of_ok (p : SampleParams) (ob : BuildOracle)
    (h : (constructNetwork p ob).1 = true) :
    stages (buildT4 p ob) = buildStages := by
  rw [buildT4, buildT3, stages_append, stages_append, stages_buildT2_of_ok p ob h]
  rfl

theorem stages_build_of_ok (p : SampleParams) (ob : BuildOracle)
    (h : (build p ob).1 = .ok true) :
    stages (build p ob).2.2 = buildStages := by
  revert h
  refine buildP p ob
    (fun r => r.1 = .ok true → stages r.2.2 = buildStages) ?_ ?_ ?_ ?_ ?_ ?_ ?_ ?_ ?_ ?_ ?_ ?_
  · exact fun h' => absurd h' (by simp)
  · exact fun h' => absurd h' (by simp)
  · exact fun h' => absurd h' (by simp)
  · exact fun h' => absurd h' (by simp)
  · exact fun _ h' => absurd h' (by simp)
  · exact fun _ h' => absurd h' (by simp)
  · exact fun _ h' => absurd h' (by simp)
  · exact fun _ h' => absurd h' (by simp)
  · exact fun _ h' => absurd h' (by simp)
  · exact fun _ _ h' => absurd h' (by simp)
  · exact fun _ _ _ h' => absurd h' (by simp)
  · exact fun hcn _ _ _ _ _ _ _ => stages_buildT4_of_ok p ob hcn

theorem stages_build_isPrefix (p : SampleParams) (ob : BuildOracle) :
    stages (build p ob).2.2 <+: buildStages := by
  have hcn2 : [Stage.parse, Stage.configure] <+: buildStages :=
    ⟨[Stage.buildSerialize, Stage.deserialize], rfl⟩
  refine buildP p ob
    (fun r => stages r.2.2 <+: buildStages) ?_ ?_ ?_ ?_ ?_ ?_ ?_ ?_ ?_ ?_ ?_ ?_
  · exact List.nil_prefix
  · exact List.nil_prefix
  · exact List.nil_prefix
  · exact List.nil_prefix
  · intro _
    rw [stages_append, stages_buildPre, List.nil_append]
    exact (stages_constructNetwork_isPrefix p ob).trans hcn2
  · intro hcn
    rw [stages_append, stages_append, stages_buildPre, List.nil_append,
      stages_constructNetwork_of_ok p ob hcn]
    exact ⟨[Stage.buildSerialize, Stage.deserialize], by simp [stages, stageOf, buildStages]⟩
  · intro hcn
    rw [stages_buildT1_of_ok p ob hcn]
    exact ⟨[Stage.deserialize], rfl⟩
  · intro hcn
    rw [stages_append, stages_buildT2_of_ok p ob hcn]
    exact ⟨[Stage.deserialize], by simp [stages, stageOf, buildStages]⟩
  · intro hcn
    rw [buildT3, stages_append, stages_buildT2_of_ok p ob hcn]
    exact ⟨[], by simp [stages, stageOf, buildStages]⟩
  · intro hcn _
    rw [stages_buildT4_of_ok p ob hcn]
  · intro hcn _ _
    rw [stages_buildT4_of_ok p ob hcn]
  · intro hcn _ _ _ _ _ _
    rw [stages_buildT4_of_ok p ob hcn]

theorem stages_infer_isPrefix (p : SampleParams) (es : Bool) (oi : InferOracle) :
    stages (infer p es oi).2 <+: inferStages := by
  unfold infer
  split_ifs
  · exact List.nil_prefix
  · exact List.nil_prefix
  · exact ⟨[Stage.execute, Stage.postProcess], rfl⟩
  · refine ⟨[Stage.execute, Stage.postProcess], ?_⟩
    simp [stages, stageOf, processInput, inferStages]
  · refine ⟨[Stage.postProcess], ?_⟩
    simp [stages, stageOf, processInput, inferStages]
  · refine ⟨[], ?_⟩
    simp [stages, stageOf, processInput, inferStages]

theorem stages_infer_of_ok (p : SampleParams) (es : Bool) (oi : InferOracle)
    (h : (infer p es oi).1 = .ok true) :
    stages (infer p es oi).2 = inferStages := by
  unfold infer at h ⊢
  split_ifs at h ⊢
  · exact absurd h (by simp)
  · exact absurd h (by simp)
  · exact absurd h (by simp)
  · simp [stages, stageOf, processInput, inferStages]

theorem infer_result_of_ok (p : SampleParams) (es : Bool) (oi : InferOracle)
    (h0 : es = true) (h1 : p.inputTensorNames.length = 1) (h2 : oi.createContextOk = true)
    (h3 : oi.executeOk = true) :
    (infer p es oi).1 = .ok (verifyOutput oi.expF oi.outputs (oi.randVal % 10)) := by
  simp [infer, h0, h1, h2, h3, processInput]

theorem infer_crash (p : SampleParams) (oi : InferOracle) :
    infer p false oi = (.crash, []) := rfl

/-! ### Lemmas: the flow of `main` -/

theorem mainResOfBRes_eq_pass (b : BRes) :
    mainResOfBRes b = .reportPass ↔ b = .ok true := by
  cases b with
  | ok v => cases v <;> simp [mainResOfBRes]
  | abort => simp [mainResOfBRes]
  | crash => simp [mainResOfBRes]

theorem mainFlow_load_fail (args : Args) (ob : BuildOracle) (file : Option (List ℕ))
    (ol : LoadOracle) (oi : InferOracle)
    (h : args.loadEngine ≠ "")
    (hl : (loadV3 (initializeSampleParams args) file ol).1 = false) :
    mainFlow true false args ob file ol oi =
      (.reportFail, (loadV3 (initializeSampleParams args) file ol).2.2) := by
  simp [mainFlow, checkEngineLoad, initializeSampleParams_loadEngine, h, hl]

theorem mainFlow_load_ok (args : Args) (ob : BuildOracle) (file : Option (List ℕ))
    (ol : LoadOracle) (oi : InferOracle)
    (h : args.loadEngine ≠ "")
    (hl : (loadV3 (initializeSampleParams args) file ol).1 = true) :
    mainFlow true false args ob file ol oi =
      (mainResOfBRes
        (infer (initializeSampleParams args)
          (loadV3 (initializeSampleParams args) file ol).2.1 oi).1,
       (loadV3 (initializeSampleParams args) file ol).2.2 ++
        (infer (initializeSampleParams args)
          (loadV3 (initializeSampleParams args) file ol).2.1 oi).2) := by
  simp [mainFlow, checkEngineLoad, initializeSampleParams_loadEngine, h, hl]

theorem mainFlow_build_abort (args : Args) (ob : BuildOracle) (file : Option (List ℕ))
    (ol : LoadOracle) (oi : InferOracle)
    (h : args.loadEngine = "")
    (hb : (build (initializeSampleParams args) ob).1 = .abort) :
    mainFlow true false args ob file ol oi =
      (.abort, (build (initializeSampleParams args) ob).2.2) := by
  have hc : checkEngineLoad (initializeSampleParams args) = false := by
    simp [checkEngineLoad, initializeSampleParams_loadEngine, h]
  simp [mainFlow, hc, hb]

theorem mainFlow_build_fail (args : Args) (ob : BuildOracle) (file : Option (List ℕ))
    (ol : LoadOracle) (oi : InferOracle)
    (h : args.loadEngine = "")
    (hb : (build (initializeSampleParams args) ob).1 = .ok false) :
    mainFlow true false args ob file ol oi =
      (.reportFail, (build (initializeSampleParams args) ob).2.2) := by
  have hc : checkEngineLoad (initializeSampleParams args) = false := by
    simp [checkEngineLoad, initializeSampleParams_loadEngine, h]
  simp [mainFlow, hc, hb]

theorem mainFlow_build_ok (args : Args) (ob : BuildOracle) (file : Option (List ℕ))
    (ol : LoadOracle) (oi : InferOracle)
    (h : args.loadEngine = "")
    (hb : (build (initializeSampleParams args) ob).1 = .ok true) :
    mainFlow true false args ob file ol oi =
      (mainResOfBRes
        (infer (initializeSampleParams args)
          (build (initializeSampleParams args) ob).2.1 oi).1,
       (build (initializeSampleParams args) ob).2.2 ++
        (infer (initializeSampleParams args)
          (build (initializeSampleParams args) ob).2.1 oi).2) := by
  have hc : checkEngineLoad (initializeSampleParams args) = false := by
    simp [checkEngineLoad, initializeSampleParams_loadEngine, h]
  simp [mainFlow, hc, hb]

theorem loadV3_no_setDLACore (p : SampleParams) (file : Option (List ℕ)) (ol : LoadOracle)
    (c : Int) : Ev.setDLACore c ∉ (loadV3 p file ol).2.2 := by
  unfold loadV3
  cases file <;> split_ifs <;> simp

theorem prefix_append_left {l1 : List Stage} {l2 l2' : List Stage} (h : l2 <+: l2') :
    (l1 ++ l2) <+: (l1 ++ l2') := by
  rcases h with ⟨t, ht⟩
  exact ⟨t, by rw [List.append_assoc, ht]⟩

/-! ## The claims -/

/-- C1: For every run, `verifyOutput` applies softmax to the 10-element
    output vector (each entry replaced by its exponential divided by the
    sum of all exponentials) and returns `true` if and only if the index of
    the maximal softmax probability equals the expected digit `mNumber` and
    that maximal probability is strictly greater than 0.9.  (`expF` models
    the C library `exp`, whose outputs are positive.) -/
theorem C1_verifyOutput_softmax_argmax_confidence (expF : ℚ → ℚ) (output : List ℚ) (n : ℕ)
    (hlen : output.length = 10) (hpos : ∀ x ∈ output, 0 < expF x) :
    verifyOutput expF output n = true ↔
      attainsMax (softmaxProbs expF output) n ∧
        9 / 10 < (softmaxProbs expF output).getD n 0 :=
  verifyOutput_true_iff expF output n hlen hpos

/-- Witness for C1 at a concrete input. -/
theorem C1_witness :
    ([0, 0, 0, 0, 0, 0, 0, 0, 0, 0] : List ℚ).length = 10 ∧
    (∀ x ∈ ([0, 0, 0, 0, 0, 0, 0, 0, 0, 0] : List ℚ), (0 : ℚ) < (fun _ => (1 : ℚ)) x) ∧
    (verifyOutput (fun _ => 1) [0, 0, 0, 0, 0, 0, 0, 0, 0, 0] 3 = true ↔
      attainsMax (softmaxProbs (fun _ => 1) [0, 0, 0, 0, 0, 0, 0, 0, 0, 0]) 3 ∧
        9 / 10 < (softmaxProbs (fun _ => 1) [0, 0, 0, 0, 0, 0, 0, 0, 0, 0]).getD 3 0) :=
  ⟨rfl, fun x _ => zero_lt_one,
    C1_verifyOutput_softmax_argmax_confidence (fun _ => 1) [0, 0, 0, 0, 0, 0, 0, 0, 0, 0] 3
      rfl (fun x _ => zero_lt_one)⟩

/-- C9: When several entries of the softmaxed output vector share the
    maximal value, `verifyOutput` reports the largest such index: the
    running-maximum loop's returned index attains the maximum, every later
    position is strictly below the maximum, every position attaining the
    maximum is at most the returned index, and `verifyOutput` only answers
    `true` for that index. -/
theorem C9_tie_breaks_to_last_index (expF : ℚ → ℚ) (output : List ℚ)
    (hlen : output.length = 10) (hpos : ∀ x ∈ output, 0 < expF x) :
    ((softmaxProbs expF output).getD (verifyLoop (softmaxProbs expF output)).2 0
        = (verifyLoop (softmaxProbs expF output)).1) ∧
    (∀ x ∈ softmaxProbs expF output, x ≤ (verifyLoop (softmaxProbs expF output)).1) ∧
    (∀ k, (verifyLoop (softmaxProbs expF output)).2 < k →
      k < (softmaxProbs expF output).length →
      (softmaxProbs expF output).getD k 0 < (verifyLoop (softmaxProbs expF output)).1) ∧
    (∀ i, i < (softmaxProbs expF output).length →
      (softmaxProbs expF output).getD i 0 = (verifyLoop (softmaxProbs expF output)).1 →
      i ≤ (verifyLoop (softmaxProbs expF output)).2) ∧
    (∀ m, verifyOutput expF output m = true → (verifyLoop (softmaxProbs expF output)).2 = m) := by
  have hne : output ≠ [] := by
    intro h
    rw [h] at hlen
    cases hlen
  have hppos : ∀ q ∈ softmaxProbs expF output, 0 < q := softmaxProbs_pos hpos hne
  have hpslen : (softmaxProbs expF output).length = 10 := by
    rw [softmaxProbs_length, hlen]
  have hpsne : softmaxProbs expF output ≠ [] := by
    intro h
    rw [h] at hpslen
    cases hpslen
  have hex : ∃ x ∈ softmaxProbs expF output, (0 : ℚ) ≤ x := by
    rcases List.exists_mem_of_ne_nil _ hpsne with ⟨q, hq⟩
    exact ⟨q, hq, (hppos q hq).le⟩
  rcases verifyLoop_spec _ hex with ⟨hjlen, hjget, hjmax, hjlast⟩
  refine ⟨hjget, hjmax, hjlast, ?_, ?_⟩
  · intro i hi hv
    by_contra hgt
    push_neg at hgt
    exact absurd hv (ne_of_lt (hjlast i hgt hi))
  · intro m hm
    have hm' : (decide ((verifyLoop (softmaxProbs expF output)).2 = m) &&
        decide ((9 : ℚ) / 10 < (verifyLoop (softmaxProbs expF output)).1)) = true := hm
    rw [Bool.and_eq_true] at hm'
    exact of_decide_eq_true hm'.1

/-- Witness for C9 at a concrete input. -/
theorem C9_witness :
    ([5, 5, 5, 5, 5, 5, 5, 5, 5, 5] : List ℚ).length = 10 ∧
    (∀ x ∈ ([5, 5, 5, 5, 5, 5, 5, 5, 5, 5] : List ℚ), (0 : ℚ) < (fun _ => (1 : ℚ)) x) ∧
    (∀ i, i < (softmaxProbs (fun _ => 1) [5, 5, 5, 5, 5, 5, 5, 5, 5, 5]).length →
      (softmaxProbs (fun _ => 1) [5, 5, 5, 5, 5, 5, 5, 5, 5, 5]).getD i 0
        = (verifyLoop (softmaxProbs (fun _ => 1) [5, 5, 5, 5, 5, 5, 5, 5, 5, 5])).1 →
      i ≤ (verifyLoop (softmaxProbs (fun _ => 1) [5, 5, 5, 5, 5, 5, 5, 5, 5, 5])).2) :=
  ⟨rfl, fun x _ => zero_lt_one,
    (C9_tie_breaks_to_last_index (fun _ => 1) [5, 5, 5, 5, 5, 5, 5, 5, 5, 5]
      rfl (fun x _ => zero_lt_one)).2.2.2.1⟩

/-- C5: In `processInput` the expected label is generated locally: the digit
    is `rand() % 10` (hence between 0 and 9), stored in `mNumber`, and the
    input image is read from the file named `<mNumber>.pgm` as a 28x28
    8-bit image, so the label used by verification names the same digit as
    the file that was read. -/
theorem C5_local_label_matches_input_file (randVal : ℕ) (fileData : List ℕ) :
    (processInput randVal fileData).1 = true ∧
    (processInput randVal fileData).2.1 = randVal % 10 ∧
    randVal % 10 < 10 ∧
    (processInput randVal fileData).2.2.2 =
      [Ev.readInputFile (Nat.repr ((processInput randVal fileData).2.1) ++ ".pgm") 28 28] :=
  ⟨rfl, rfl, Nat.mod_lt _ (by decide), rfl⟩

/-- C7: On the load path the engine-plan file is read wholesale: `loadV3`
    reads exactly the file's size in bytes from its beginning and hands the
    unmodified buffer together with its byte count to the vendor
    deserializer; every `deserializeCudaEngine` call in its trace receives
    exactly the file's contents and length. -/
theorem C7_load_wholesale_no_parsing (p : SampleParams) (contents : List ℕ) (ol : LoadOracle)
    (h : ol.readOk = true) :
    Ev.deserializeWith contents contents.length ∈ (loadV3 p (some contents) ol).2.2 ∧
    (∀ d s, Ev.deserializeWith d s ∈ (loadV3 p (some contents) ol).2.2 →
      d = contents ∧ s = contents.length) ∧
    Ev.readEngineFile contents.length ∈ (loadV3 p (some contents) ol).2.2 := by
  refine ⟨?_, ?_, ?_⟩
  · simp [loadV3, h, List.take_length]
  · intro d s hmem
    simp [loadV3, h, List.take_length] at hmem
    exact hmem
  · simp [loadV3, h]

/-- Witness for C7 at a concrete input. -/
theorem C7_witness :
    (⟨true, true, true⟩ : LoadOracle).readOk = true ∧
    (Ev.deserializeWith [10, 20, 30] 3 ∈
      (loadV3 (initializeSampleParams ⟨[], -1, false, false, false, "", "", "e.plan"⟩)
        (some [10, 20, 30]) ⟨true, true, true⟩).2.2) :=
  ⟨rfl,
    (C7_load_wholesale_no_parsing
      (initializeSampleParams ⟨[], -1, false, false, false, "", "", "e.plan"⟩)
      [10, 20, 30] ⟨true, true, true⟩ rfl).1⟩

/-- C3: On every run with valid arguments exactly one engine-acquisition
    path executes: the load path (`loadV3`) runs when and only when the
    load-engine parameter is a non-empty string (as decided by
    `checkEngineLoad`), and the build path (`build`) runs otherwise — the
    trace contains the load path's file open and none of the build path's
    factory calls, or vice versa. -/
theorem C3_exactly_one_acquisition_path (args : Args) (ob : BuildOracle)
    (file : Option (List ℕ)) (ol : LoadOracle) (oi : InferOracle) :
    (checkEngineLoad (initializeSampleParams args) = true ↔ args.loadEngine ≠ "") ∧
    (args.loadEngine ≠ "" →
      Ev.openEngineFile args.loadEngine ∈ (mainFlow true false args ob file ol oi).2 ∧
      Ev.createBuilder ∉ (mainFlow true false args ob file ol oi).2) ∧
    (args.loadEngine = "" →
      Ev.createBuilder ∈ (mainFlow true false args ob file ol oi).2 ∧
      ∀ s, Ev.openEngineFile s ∉ (mainFlow true false args ob file ol oi).2) := by
  have hopen : Ev.openEngineFile args.loadEngine
      ∈ (loadV3 (initializeSampleParams args) file ol).2.2 := by
    have := loadV3_mem_openEngineFile (initializeSampleParams args) file ol
    rwa [initializeSampleParams_loadEngine] at this
  refine ⟨by rw [checkEngineLoad_iff, initializeSampleParams_loadEngine], ?_, ?_⟩
  · intro h
    cases hl : (loadV3 (initializeSampleParams args) file ol).1
    · rw [mainFlow_load_fail args ob file ol oi h hl]
      exact ⟨hopen, loadV3_no_createBuilder _ _ _⟩
    · rw [mainFlow_load_ok args ob file ol oi h hl]
      refine ⟨List.mem_append_left _ hopen, ?_⟩
      intro hmem
      rcases List.mem_append.mp hmem with hm | hm
      · exact loadV3_no_createBuilder _ _ _ hm
      · exact infer_no_createBuilder _ _ _ hm
  · intro h
    cases hb : (build (initializeSampleParams args) ob).1 with
    | crash => exact absurd hb (build_ne_crash _ _)
    | abort =>
      rw [mainFlow_build_abort args ob file ol oi h hb]
      exact ⟨build_mem_createBuilder _ _, fun s => build_no_openEngineFile _ _ s⟩
    | ok okv =>
      cases okv
      · rw [mainFlow_build_fail args ob file ol oi h hb]
        exact ⟨build_mem_createBuilder _ _, fun s => build_no_openEngineFile _ _ s⟩
      · rw [mainFlow_build_ok args ob file ol oi h hb]
        refine ⟨List.mem_append_left _ (build_mem_createBuilder _ _), ?_⟩
        intro s hmem
        rcases List.mem_append.mp hmem with hm | hm
        · exact build_no_openEngineFile _ _ s hm
        · exact infer_no_openEngineFile _ _ _ s hm

/-- Witness for C3 at a concrete input (load path chosen). -/
theorem C3_witness :
    (⟨[], -1, false, false, false, "", "", "w.plan"⟩ : Args).loadEngine ≠ "" ∧
    (Ev.openEngineFile "w.plan" ∈
      (mainFlow true false ⟨[], -1, false, false, false, "", "", "w.plan"⟩
        ⟨true, true, true, true, true, true, true, true, true, true, true, 1, 4, 1, 2⟩
        (some [1]) ⟨true, true, true⟩
        ⟨true, 0, [], true, [], fun q => q⟩).2 ∧
      Ev.createBuilder ∉
        (mainFlow true false ⟨[], -1, false, false, false, "", "", "w.plan"⟩
          ⟨true, true, true, true, true, true, true, true, true, true, true, 1, 4, 1, 2⟩
          (some [1]) ⟨true, true, true⟩
          ⟨true, 0, [], true, [], fun q => q⟩).2) :=
  ⟨by decide,
    (C3_exactly_one_acquisition_path ⟨[], -1, false, false, false, "", "", "w.plan"⟩
      ⟨true, true, true, true, true, true, true, true, true, true, true, 1, 4, 1, 2⟩
      (some [1]) ⟨true, true, true⟩
      ⟨true, 0, [], true, [], fun q => q⟩).2.1 (by decide)⟩

/-- C4: On the build path, every successful run performs the vendor-call
    pipeline in exactly the canonical order — parse, configure,
    build/serialize, deserialize, bind buffers, execute, post-process —
    and on every run (successful or not) the performed stages are a prefix
    of that order, so a stage begins only after all earlier stages ran. -/
theorem C4_pipeline_stage_order (args : Args) (ob : BuildOracle)
    (file : Option (List ℕ)) (ol : LoadOracle) (oi : InferOracle)
    (h : args.loadEngine = "") :
    ((mainFlow true false args ob file ol oi).1 = .reportPass →
      stages (mainFlow true false args ob file ol oi).2 = canonicalStages) ∧
    stages (mainFlow true false args ob file ol oi).2 <+: canonicalStages := by
  cases hb : (build (initializeSampleParams args) ob).1 with
  | crash => exact absurd hb (build_ne_crash _ _)
  | abort =>
    rw [mainFlow_build_abort args ob file ol oi h hb]
    constructor
    · intro hp
      cases hp
    · exact (stages_build_isPrefix _ _).trans ⟨inferStages, rfl⟩
  | ok okv =>
    cases okv
    · rw [mainFlow_build_fail args ob file ol oi h hb]
      constructor
      · intro hp
        cases hp
      · exact (stages_build_isPrefix _ _).trans ⟨inferStages, rfl⟩
    · rw [mainFlow_build_ok args ob file ol oi h hb]
      constructor
      · intro hp
        have hr : (infer (initializeSampleParams args)
            (build (initializeSampleParams args) ob).2.1 oi).1 = .ok true :=
          (mainResOfBRes_eq_pass _).mp hp
        show stages ((build (initializeSampleParams args) ob).2.2 ++ _) = canonicalStages
        rw [stages_append, stages_build_of_ok _ _ hb, stages_infer_of_ok _ _ _ hr]
        rfl
      · show stages ((build (initializeSampleParams args) ob).2.2 ++ _) <+: canonicalStages
        rw [stages_append, stages_build_of_ok _ _ hb, canonicalStages]
        exact prefix_append_left (stages_infer_isPrefix _ _ _)

/-- Witness for C4 at a concrete input (build path chosen, all steps ok). -/
theorem C4_witness :
    (⟨[], -1, false, false, false, "", "", ""⟩ : Args).loadEngine = "" ∧
    stages (mainFlow true false ⟨[], -1, false, false, false, "", "", ""⟩
      ⟨true, true, true, true, true, true, true, true, true, true, true, 1, 4, 1, 2⟩
      none ⟨true, true, true⟩
      ⟨true, 0, [], true, [], fun q => q⟩).2 <+: canonicalStages :=
  ⟨rfl,
    (C4_pipeline_stage_order ⟨[], -1, false, false, false, "", "", ""⟩
      ⟨true, true, true, true, true, true, true, true, true, true, true, 1, 4, 1, 2⟩
      none ⟨true, true, true⟩
      ⟨true, 0, [], true, [], fun q => q⟩ rfl).2⟩

/-- C6 counterexample: a load-path run with `--useDLACore=2` whose full
    vendor-call trace passes the DLA core index 2 to no vendor call at all
    (`loadV3` hardcodes its local `DLACore` to `-1` and never calls
    `setDLACore`), so the `--useDLACore` value does not reach the vendor
    runtime on the load path. -/
theorem C6_counterexample :
    ((mainFlow true false ⟨[], 2, false, false, false, "", "", "eng.plan"⟩
        ⟨true, true, true, true, true, true, true, true, true, true, true, 1, 4, 1, 2⟩
        (some [7]) ⟨true, true, true⟩
        ⟨true, 0, [], true, [], fun q => q⟩).2.all
      (fun e => !usesDLACore 2 e)) = true ∧
    (⟨[], 2, false, false, false, "", "", "eng.plan"⟩ : Args).useDLACore = 2 ∧
    (⟨[], 2, false, false, false, "", "", "eng.plan"⟩ : Args).loadEngine ≠ "" :=
  ⟨by decide, rfl, by decide⟩

/-- C6 (amended): each CLI flag populates the corresponding field of the
    parameter struct unchanged, `dataDirs` defaults to
    `["data/mnist/", "data/samples/mnist/"]` when no `--datadir` is given,
    and the `--useDLACore` value reaches the vendor API (`enableDLA`) on the
    build path; on the load path, however, `loadV3` ignores the parameter
    (its local `DLACore` is hardcoded to `-1`) and never calls
    `setDLACore`. -/
theorem C6_flags_populate_params_amended (args : Args) (ob : BuildOracle)
    (file : Option (List ℕ)) (ol : LoadOracle) :
    (initializeSampleParams args).dlaCore = args.useDLACore ∧
    (initializeSampleParams args).int8 = args.runInInt8 ∧
    (initializeSampleParams args).fp16 = args.runInFp16 ∧
    (initializeSampleParams args).bf16 = args.runInBf16 ∧
    (initializeSampleParams args).timingCacheFile = args.timingCacheFile ∧
    (initializeSampleParams args).saveEngine = args.saveEngine ∧
    (initializeSampleParams args).loadEngine = args.loadEngine ∧
    (args.dataDirs = [] →
      (initializeSampleParams args).dataDirs = ["data/mnist/", "data/samples/mnist/"]) ∧
    (args.dataDirs ≠ [] → (initializeSampleParams args).dataDirs = args.dataDirs) ∧
    (ob.parseOk = true →
      Ev.enableDLA args.useDLACore ∈ (constructNetwork (initializeSampleParams args) ob).2) ∧
    (∀ c, Ev.setDLACore c ∉ (loadV3 (initializeSampleParams args) file ol).2.2) := by
  refine ⟨rfl, rfl, rfl, rfl, rfl, rfl, rfl, ?_, ?_, ?_, ?_⟩
  · intro h
    simp [initializeSampleParams, h]
  · intro h
    simp [initializeSampleParams, h]
  · intro h
    simp [constructNetwork, h, initializeSampleParams]
  · exact fun c => loadV3_no_setDLACore _ _ _ c

/-- Witness for C6 (amended) at a concrete input. -/
theorem C6_witness :
    (⟨true, true, true, true, true, true, true, true, true, true, true, 1, 4, 1, 2⟩ :
      BuildOracle).parseOk = true ∧
    Ev.enableDLA 3 ∈
      (constructNetwork (initializeSampleParams ⟨["d/"], 3, false, false, false, "", "", ""⟩)
        ⟨true, true, true, true, true, true, true, true, true, true, true, 1, 4, 1, 2⟩).2 :=
  ⟨rfl,
    (C6_flags_populate_params_amended ⟨["d/"], 3, false, false, false, "", "", ""⟩
      ⟨true, true, true, true, true, true, true, true, true, true, true, 1, 4, 1, 2⟩
      none ⟨true, true, true⟩).2.2.2.2.2.2.2.2.2.1 rfl⟩

theorem build_trace_after_deserialize (p : SampleParams) (ob : BuildOracle)
    (h1 : ob.createBuilderOk = true) (h2 : ob.createNetworkOk = true)
    (h3 : ob.createConfigOk = true) (h4 : ob.createParserOk = true)
    (hcn : (constructNetwork p ob).1 = true) (h6 : ob.makeStreamOk = true)
    (h7 : ob.planOk = true) (h8 : ob.createRuntimeOk = true)
    (h9 : ob.deserializeOk = true) :
    (build p ob).2.2 = buildT4 p ob := by
  rw [build, h1, guardStep_true, h2, guardStep_true, h3, guardStep_true, h4, guardStep_true,
    hcn, guardStep_true, h6, guardStep_true, h7, guardStep_true, h8, guardStep_true,
    h9, guardStep_true]
  cases ob.saveOk
  · rw [guardStep_false]
  · rw [guardStep_true]
    cases ob.nbInputs == 1
    · rw [assertStep_false]
    · rw [assertStep_true]
      cases ob.inputNbDims == 4
      · rw [assertStep_false]
      · rw [assertStep_true]
        cases ob.nbOutputs == 1
        · rw [assertStep_false]
        · rw [assertStep_true]
          cases ob.outputNbDims == 2
          · rw [assertStep_false]
          · rw [assertStep_true]

/-- C8: `build` attempts to save the serialized engine unconditionally,
    with `mParams.saveEngine` as the file name (even when that flag was not
    provided, i.e. the empty path): once all steps up to deserialization
    succeeded, the trace contains the `sample::saveEngine` call with that
    file name, and if the save fails then `build` returns false and the
    whole run is reported as failed. -/
theorem C8_save_engine_unconditional (args : Args) (ob : BuildOracle)
    (file : Option (List ℕ)) (ol : LoadOracle) (oi : InferOracle)
    (h1 : ob.createBuilderOk = true) (h2 : ob.createNetworkOk = true)
    (h3 : ob.createConfigOk = true) (h4 : ob.createParserOk = true)
    (h5 : ob.parseOk = true) (h6 : ob.makeStreamOk = true) (h7 : ob.planOk = true)
    (h8 : ob.createRuntimeOk = true) (h9 : ob.deserializeOk = true) :
    Ev.saveEngineFile args.saveEngine ∈ (build (initializeSampleParams args) ob).2.2 ∧
    (ob.saveOk = false →
      (build (initializeSampleParams args) ob).1 = .ok false ∧
      (args.loadEngine = "" →
        (mainFlow true false args ob file ol oi).1 = .reportFail)) := by
  have hcn : (constructNetwork (initializeSampleParams args) ob).1 = true := by
    simp [constructNetwork, h5]
  constructor
  · rw [build_trace_after_deserialize _ _ h1 h2 h3 h4 hcn h6 h7 h8 h9, buildT4,
      initializeSampleParams_saveEngine]
    simp
  · intro hsv
    have hb : (build (initializeSampleParams args) ob).1 = .ok false := by
      simp [build, guardStep, h1, h2, h3, h4, h6, h7, h8, h9, hcn, hsv]
    refine ⟨hb, ?_⟩
    intro hle
    rw [mainFlow_build_fail args ob file ol oi hle hb]

/-- Witness for C8 at a concrete input with an empty `--saveEngine` path. -/
theorem C8_witness :
    (⟨true, true, true, true, true, true, true, true, true, true, false, 1, 4, 1, 2⟩ :
      BuildOracle).saveOk = false ∧
    Ev.saveEngineFile "" ∈
      (build (initializeSampleParams ⟨[], -1, false, false, false, "", "", ""⟩)
        ⟨true, true, true, true, true, true, true, true, true, true, false, 1, 4, 1, 2⟩).2.2 ∧
    (mainFlow true false ⟨[], -1, false, false, false, "", "", ""⟩
      ⟨true, true, true, true, true, true, true, true, true, true, false, 1, 4, 1, 2⟩
      none ⟨true, true, true⟩ ⟨true, 0, [], true, [], fun q => q⟩).1 = .reportFail := by
  have h := C8_save_engine_unconditional ⟨[], -1, false, false, false, "", "", ""⟩
    ⟨true, true, true, true, true, true, true, true, true, true, false, 1, 4, 1, 2⟩
    none ⟨true, true, true⟩ ⟨true, 0, [], true, [], fun q => q⟩
    rfl rfl rfl rfl rfl rfl rfl rfl rfl
  exact ⟨rfl, h.1, ((h.2 rfl).2 rfl)⟩

/-- C10: After a successful parse on the build path, `build` asserts that
    the network has exactly one input of dimension count 4 and exactly one
    output of dimension count 2; with that MNIST shape the assertions pass
    and `build` reaches its normal `return true`, while for any other shape
    the program aborts via the assertion instead of returning false. -/
theorem C10_shape_assertions (p : SampleParams) (ob : BuildOracle)
    (h1 : ob.createBuilderOk = true) (h2 : ob.createNetworkOk = true)
    (h3 : ob.createConfigOk = true) (h4 : ob.createParserOk = true)
    (h5 : ob.parseOk = true) (h6 : ob.makeStreamOk = true) (h7 : ob.planOk = true)
    (h8 : ob.createRuntimeOk = true) (h9 : ob.deserializeOk = true)
    (h10 : ob.saveOk = true) :
    ((ob.nbInputs = 1 ∧ ob.inputNbDims = 4 ∧ ob.nbOutputs = 1 ∧ ob.outputNbDims = 2) →
      (build p ob).1 = .ok true) ∧
    (¬(ob.nbInputs = 1 ∧ ob.inputNbDims = 4 ∧ ob.nbOutputs = 1 ∧ ob.outputNbDims = 2) →
      (build p ob).1 = .abort) := by
  have hcn : (constructNetwork p ob).1 = true := by
    simp [constructNetwork, h5]
  constructor
  · rintro ⟨a1, a2, a3, a4⟩
    simp [build, guardStep, assertStep, h1, h2, h3, h4, h6, h7, h8, h9, h10, hcn,
      a1, a2, a3, a4]
  · intro hn
    by_cases b1 : ob.nbInputs = 1
    · by_cases b2 : ob.inputNbDims = 4
      · by_cases b3 : ob.nbOutputs = 1
        · by_cases b4 : ob.outputNbDims = 2
          · exact absurd ⟨b1, b2, b3, b4⟩ hn
          · simp [build, guardStep, assertStep, h1, h2, h3, h4, h6, h7, h8, h9, h10, hcn,
              b1, b2, b3, b4]
        · simp [build, guardStep, assertStep, h1, h2, h3, h4, h6, h7, h8, h9, h10, hcn,
            b1, b2, b3]
      · simp [build, guardStep, assertStep, h1, h2, h3, h4, h6, h7, h8, h9, h10, hcn,
          b1, b2]
    · simp [build, guardStep, assertStep, h1, h2, h3, h4, h6, h7, h8, h9, h10, hcn, b1]

/-- Witness for C10 at concrete inputs: the MNIST shape passes, a wrong
    shape aborts. -/
theorem C10_witness :
    ((build (initializeSampleParams ⟨[], -1, false, false, false, "", "", ""⟩)
      ⟨true, true, true, true, true, true, true, true, true, true, true, 1, 4, 1, 2⟩).1
        = .ok true) ∧
    ((build (initializeSampleParams ⟨[], -1, false, false, false, "", "", ""⟩)
      ⟨true, true, true, true, true, true, true, true, true, true, true, 2, 4, 1, 2⟩).1
        = .abort) :=
  ⟨(C10_shape_assertions _ _ rfl rfl rfl rfl rfl rfl rfl rfl rfl rfl).1
      ⟨rfl, rfl, rfl, rfl⟩,
    (C10_shape_assertions _ _ rfl rfl rfl rfl rfl rfl rfl rfl rfl rfl).2
      (by simp)⟩

/-- C2 counterexample: a load-path run in which the engine-deserialization
    sub-step fails (`deserializeCudaEngine` returns null, so `mEngine` is
    not set).  `loadV3` never checks that result and still returns `true`,
    so no fail report is produced; `main` then calls `infer`, whose first
    statements dereference the null engine, and the process crashes.  The
    exit status is therefore not the fail report that the claim requires
    for a failed sub-step ("any false return produces the fail report"). -/
theorem C2_counterexample :
    (mainFlow true false ⟨[], -1, false, false, false, "", "", "engine.plan"⟩
        ⟨true, true, true, true, true, true, true, true, true, true, true, 1, 4, 1, 2⟩
        (some [0, 1, 2]) ⟨true, true, false⟩
        ⟨true, 0, [], true, [], fun q => q⟩).1 = .crash ∧
    (mainFlow true false ⟨[], -1, false, false, false, "", "", "engine.plan"⟩
        ⟨true, true, true, true, true, true, true, true, true, true, true, 1, 4, 1, 2⟩
        (some [0, 1, 2]) ⟨true, true, false⟩
        ⟨true, 0, [], true, [], fun q => q⟩).1 ≠ .reportFail ∧
    (loadV3 (initializeSampleParams ⟨[], -1, false, false, false, "", "", "engine.plan"⟩)
        (some [0, 1, 2]) ⟨true, true, false⟩).1 = true ∧
    (loadV3 (initializeSampleParams ⟨[], -1, false, false, false, "", "", "engine.plan"⟩)
        (some [0, 1, 2]) ⟨true, true, false⟩).2.1 = false ∧
    (⟨true, true, false⟩ : LoadOracle).deserializeOk = false :=
  ⟨by decide, by decide, rfl, rfl, rfl⟩

/-- C2 (amended): every step returns a boolean, a false return aborts the
    run with the fail report, and the run is reported as a pass exactly
    when the chosen engine-acquisition step and the infer step returned
    true.  However, on the load path `loadV3`'s boolean reflects only the
    file open and read: the engine-deserialization sub-step is not
    checked, so its failure produces no fail report — `loadV3` returns
    `true` with `mEngine` unset, and the subsequent `infer` then crashes
    dereferencing the null engine instead of reporting anything. -/
theorem C2_pass_iff_steps_true_amended (args : Args) (ob : BuildOracle)
    (file : Option (List ℕ)) (ol : LoadOracle) (oi : InferOracle) :
    ((mainFlow true false args ob file ol oi).1 = .reportPass ↔
      (if args.loadEngine ≠ ""
       then (loadV3 (initializeSampleParams args) file ol).1 = true ∧
         (infer (initializeSampleParams args)
           (loadV3 (initializeSampleParams args) file ol).2.1 oi).1 = .ok true
       else (build (initializeSampleParams args) ob).1 = .ok true ∧
         (infer (initializeSampleParams args)
           (build (initializeSampleParams args) ob).2.1 oi).1 = .ok true)) ∧
    ((loadV3 (initializeSampleParams args) file ol).1 = (file.isSome && ol.readOk)) ∧
    (args.loadEngine ≠ "" → (loadV3 (initializeSampleParams args) file ol).1 = false →
      mainFlow true false args ob file ol oi =
        (.reportFail, (loadV3 (initializeSampleParams args) file ol).2.2)) ∧
    (args.loadEngine = "" → (build (initializeSampleParams args) ob).1 = .ok false →
      mainFlow true false args ob file ol oi =
        (.reportFail, (build (initializeSampleParams args) ob).2.2)) ∧
    (args.loadEngine ≠ "" → (loadV3 (initializeSampleParams args) file ol).1 = true →
      (loadV3 (initializeSampleParams args) file ol).2.1 = false →
      (mainFlow true false args ob file ol oi).1 = .crash) := by
  refine ⟨?_, loadV3_fst _ _ _, mainFlow_load_fail args ob file ol oi,
    mainFlow_build_fail args ob file ol oi, ?_⟩
  case refine_2 =>
    intro h hl he
    rw [mainFlow_load_ok args ob file ol oi h hl]
    show mainResOfBRes (infer _ _ _).1 = .crash
    rw [he, infer_crash]
    rfl
  by_cases hle : args.loadEngine = ""
  · rw [if_neg (not_not_intro hle)]
    cases hb : (build (initializeSampleParams args) ob).1 with
    | crash => exact absurd hb (build_ne_crash _ _)
    | abort =>
      rw [mainFlow_build_abort args ob file ol oi hle hb]
      simp [hb]
    | ok okv =>
      cases okv
      · rw [mainFlow_build_fail args ob file ol oi hle hb]
        simp [hb]
      · rw [mainFlow_build_ok args ob file ol oi hle hb]
        show mainResOfBRes _ = _ ↔ _
        rw [mainResOfBRes_eq_pass]
        simp [hb]
  · rw [if_pos hle]
    cases hl : (loadV3 (initializeSampleParams args) file ol).1
    · rw [mainFlow_load_fail args ob file ol oi hle hl]
      simp [hl]
    · rw [mainFlow_load_ok args ob file ol oi hle hl]
      show mainResOfBRes _ = _ ↔ _
      rw [mainResOfBRes_eq_pass]
      simp [hl]

/-- Witness for C2 (amended) at a concrete input. -/
theorem C2_witness :
    (mainFlow true false ⟨[], -1, false, false, false, "", "", ""⟩
        ⟨true, true, true, true, true, true, true, true, true, true, true, 1, 4, 1, 2⟩
        none ⟨true, true, true⟩ ⟨false, 0, [], true, [], fun q => q⟩).1 = .reportPass ↔
      (if (⟨[], -1, false, false, false, "", "", ""⟩ : Args).loadEngine ≠ ""
       then (loadV3 (initializeSampleParams ⟨[], -1, false, false, false, "", "", ""⟩)
           none ⟨true, true, true⟩).1 = true ∧
         (infer (initializeSampleParams ⟨[], -1, false, false, false, "", "", ""⟩)
           (loadV3 (initializeSampleParams ⟨[], -1, false, false, false, "", "", ""⟩)
             none ⟨true, true, true⟩).2.1
           ⟨false, 0, [], true, [], fun q => q⟩).1 = .ok true
       else (build (initializeSampleParams ⟨[], -1, false, false, false, "", "", ""⟩)
           ⟨true, true, true, true, true, true, true, true, true, true, true, 1, 4, 1, 2⟩).1
             = .ok true ∧
         (infer (initializeSampleParams ⟨[], -1, false, false, false, "", "", ""⟩)
           (build (initializeSampleParams ⟨[], -1, false, false, false, "", "", ""⟩)
             ⟨true, true, true, true, true, true, true, true, true, true, true, 1, 4, 1, 2⟩).2.1
           ⟨false, 0, [], true, [], fun q => q⟩).1 = .ok true) :=
  (C2_pass_iff_steps_true_amended ⟨[], -1, false, false, false, "", "", ""⟩
    ⟨true, true, true, true, true, true, true, true, true, true, true, 1, 4, 1, 2⟩
    none ⟨true, true, true⟩ ⟨false, 0, [], true, [], fun q => q⟩).1

end SampleOnnxMNIST
